import Mathlib

/-!
Verification of the insta485generator static site generator
(src/insta485generator/main module) against its specification.

The program is a single driver function. We embed it shallowly:

* filesystem paths are normalized lists of path segments, matching the
  POSIX and pathlib semantics the program relies on (pathlib collapses
  duplicate separators when joining);
* the filesystem is a map from paths to optional file contents;
* templates are pre-parsed sequences of literal and variable segments,
  with the jinja2 facilities the program configures (FileSystemLoader
  lookup, select_autoescape on the template name, markupsafe escaping)
  modelled from their documented behaviour;
* the driver is a function from a description of the world at startup
  to an exit outcome plus the resulting filesystem.
-/

namespace StaticGen

/-- Filesystem paths as normalized segment lists (pathlib collapses
duplicate separators, so a path is determined by its nonempty segments). -/
abbrev FilePath := List String

/-- The filesystem: a map from paths to optional file contents. -/
abbrev Fs := FilePath → Option String

/-- Writing a file: overwrites any existing file at that path
(models open(p, "w") followed by write, and a copied file). -/
def fsWrite (fs : Fs) (p : FilePath) (c : String) : Fs :=
  fun q => if q = p then some c else fs q

/-- Python str.lstrip applied with "/" removes every leading slash
(source line 76 and 79: key["url"].lstrip("/")). -/
def dropLeadingSlashes : List Char → List Char
  | [] => []
  | c :: cs => if c = '/' then dropLeadingSlashes cs else c :: cs

/-- Stripping at most one leading slash, the normalization the spec
describes in section 4.4 step 1. -/
def dropOneSlash : List Char → List Char
  | [] => []
  | c :: cs => if c = '/' then cs else c :: cs

/-- Split a character list on slashes into its nonempty segments; the
accumulator holds the current segment reversed. -/
def splitSegs : List Char → List Char → List String
  | [], cur => if cur = [] then [] else [String.mk cur.reverse]
  | c :: cs, cur =>
    if c = '/' then
      if cur = [] then splitSegs cs [] else String.mk cur.reverse :: splitSegs cs []
    else
      splitSegs cs (c :: cur)

/-- The normalized segments of a path string. -/
def segmentsOf (s : String) : List String := splitSegs s.data []

/-- Python str.lstrip("/") on a string. -/
def lstripSlash (s : String) : String := String.mk (dropLeadingSlashes s.data)

/-- Destination path computed by the program (source line 96):
output_root / url / "index.html", where url = key["url"].lstrip("/"),
as normalized segments. -/
def destPath (outRoot : FilePath) (url : String) : FilePath :=
  outRoot ++ segmentsOf (lstripSlash url) ++ ["index.html"]

/-- Destination path as the spec words it: strip a single leading slash
from the url and append index.html under the output root. -/
def specDestPath (outRoot : FilePath) (url : String) : FilePath :=
  outRoot ++ segmentsOf (String.mk (dropOneSlash url.data)) ++ ["index.html"]

/-! Templates and rendering.

The program hands rendering to jinja2 with
autoescape = select_autoescape(["html", "xml"]) (source lines 32 to 36).
We model the slice of jinja2 the program exercises: a template is a
sequence of literal chunks and variable interpolations, and rendering
substitutes context values for variables, escaping them when the
environment enables autoescaping for the template. -/

/-- A parsed template segment: literal text or a variable interpolation. -/
inductive Segment where
  | lit (s : String)
  | var (x : String)
deriving DecidableEq

/-- A parsed template. -/
abbrev Template := List Segment

/-- A render context: variable bindings passed to template.render. -/
abbrev Ctx := List (String × String)

/-- Context lookup; an unbound variable renders as the empty string
(jinja2 default Undefined). -/
def lookupCtx (ctx : Ctx) (x : String) : String :=
  match ctx.find? (fun p => p.1 = x) with
  | some p => p.2
  | none => ""

/-- Escaping of one character, per markupsafe.escape as used by jinja2
autoescaping. -/
def escChar (c : Char) : List Char :=
  if c = '&' then "&amp;".data
  else if c = '<' then "&lt;".data
  else if c = '>' then "&gt;".data
  else if c = '"' then "&#34;".data
  else if c = '\'' then "&#39;".data
  else [c]

/-- Escaping of a character list. -/
def escList : List Char → List Char
  | [] => []
  | c :: cs => escChar c ++ escList cs

/-- HTML escaping of a string, per markupsafe.escape. -/
def htmlEscape (s : String) : String := String.mk (escList s.data)

/-- jinja2.select_autoescape(["html", "xml"]) as configured at source
line 34: autoescaping is enabled exactly when the lowercased template
name ends in ".html" or ".xml" (documented jinja2 behaviour; note the
decision looks at the template name, not at the output path). -/
def selectAutoescape (name : String) : Bool :=
  ".html".data.isSuffixOf (name.data.map Char.toLower)
    || ".xml".data.isSuffixOf (name.data.map Char.toLower)

/-- Rendered characters of a template under a context, with esc saying
whether autoescaping is active. -/
def renderList (esc : Bool) (ctx : Ctx) : Template → List Char
  | [] => []
  | .lit s :: rest => s.data ++ renderList esc ctx rest
  | .var x :: rest =>
    (if esc then escList (lookupCtx ctx x).data else (lookupCtx ctx x).data)
      ++ renderList esc ctx rest

/-- template.render(context) (source line 90). -/
def renderTemplate (esc : Bool) (ctx : Ctx) (t : Template) : String :=
  String.mk (renderList esc ctx t)

/-- The template environment: template names (relative paths under the
template root) mapped to their parsed templates, as resolved by
jinja2.FileSystemLoader (source line 33). -/
abbrev Env := List (String × Template)

/-- env.get_template(name): resolves a template name, none when no file
matches (jinja2 raises TemplateNotFound, source lines 78 to 83). -/
def lookupTemplate (env : Env) (name : String) : Option Template :=
  match env.find? (fun p => p.1 = name) with
  | some p => some p.2
  | none => none

/-! Generic filesystem write folds, shared by the static copier and
the render loop. -/

/-- Perform a sequence of writes in order. -/
def writeAll (fs : Fs) : List (FilePath × String) → Fs
  | [] => fs
  | pc :: rest => writeAll (fsWrite fs pc.1 pc.2) rest

/-- The content of the last write in ws targeting q, if any. -/
def lastLookup : List (FilePath × String) → FilePath → Option String
  | [], _ => none
  | pc :: rest, q =>
    match lastLookup rest q with
    | some c => some c
    | none => if q = pc.1 then some pc.2 else none

/-! Route records and the render loop (source lines 75 to 104). -/

/-- One entry of the parsed config.json array. Each field is optional
because the code accesses key["url"], key["template"], key["context"]
without validating their presence; a missing field raises KeyError. -/
structure RouteRec where
  url : Option String
  template : Option String
  context : Option Ctx
deriving DecidableEq

/-- Errors that abort the render loop. -/
inductive LoopErr where
  | keyError (k : String)
  | templateMissing (name : String)
deriving DecidableEq

/-- The render loop, source lines 75 to 104: for each route in order,
read its url, resolve its template (leading slashes stripped), read its
context, render and write output_root / url / "index.html". It stops at
the first error, leaving the writes performed so far in place. -/
def renderLoop (env : Env) (outRoot : FilePath) :
    List RouteRec → Fs → Fs × Option LoopErr
  | [], fs => (fs, none)
  | r :: rest, fs =>
    match r.url with
    | none => (fs, some (.keyError "url"))
    | some u =>
      match r.template with
      | none => (fs, some (.keyError "template"))
      | some tn =>
        match lookupTemplate env (lstripSlash tn) with
        | none => (fs, some (.templateMissing tn))
        | some t =>
          match r.context with
          | none => (fs, some (.keyError "context"))
          | some ctx =>
            let content := renderTemplate (selectAutoescape (lstripSlash tn)) ctx t
            renderLoop env outRoot rest (fsWrite fs (destPath outRoot u) content)

/-- A route record the loop can process without raising: all three keys
present and the template resolvable. -/
def routeOkB (env : Env) (r : RouteRec) : Bool :=
  r.url.isSome && r.context.isSome &&
    (match r.template with
     | some tn => (lookupTemplate env (lstripSlash tn)).isSome
     | none => false)

/-- The url of a route (empty when the key is missing; under routeOkB
the default is never used). -/
def routeUrl (r : RouteRec) : String := r.url.getD ""

/-- The destination path of a route. -/
def routeDest (outRoot : FilePath) (r : RouteRec) : FilePath :=
  destPath outRoot (routeUrl r)

/-- The text the loop writes for a route (empty when the template does
not resolve; under routeOkB the default is never used). -/
def routeRendered (env : Env) (r : RouteRec) : String :=
  let tn := lstripSlash (r.template.getD "")
  match lookupTemplate env tn with
  | some t => renderTemplate (selectAutoescape tn) (r.context.getD []) t
  | none => ""

/-- The write each route performs. -/
def routeWrite (env : Env) (outRoot : FilePath) (r : RouteRec) :
    FilePath × String :=
  (routeDest outRoot r, routeRendered env r)

/-- The error the loop raises at a route, if any, in evaluation order:
key["url"] (line 76), key["template"] then the template lookup
(line 79), then key["context"] (line 90). -/
def routeFailure (env : Env) (r : RouteRec) : Option LoopErr :=
  match r.url with
  | none => some (.keyError "url")
  | some _ =>
    match r.template with
    | none => some (.keyError "template")
    | some tn =>
      match lookupTemplate env (lstripSlash tn) with
      | none => some (.templateMissing tn)
      | some _ =>
        match r.context with
        | none => some (.keyError "context")
        | some _ => none

/-! The static copier (source lines 60 to 73). -/

/-- A directory tree as a list of files: paths relative to the tree
root, with contents. -/
abbrev Tree := List (FilePath × String)

/-- shutil.copytree(static, output, dirs_exist_ok=True): every file of
the source tree is written under the destination root, overwriting
same-named destination files; none models an absent static directory,
in which case nothing happens (the exists check at line 62). -/
def copyStatic (tree : Option Tree) (dst : FilePath) (fs : Fs) : Fs :=
  match tree with
  | none => fs
  | some files => writeAll fs (files.map (fun pc => (dst ++ pc.1, pc.2)))

/-! The driver (function main, source lines 15 to 120). -/

/-- The exceptions main can raise past the render loop. -/
inductive Exc where
  | fileNotFound (msg : String)
  | fileExists (msg : String)
  | jsonDecode (msg : String)
  | templateError (msg : String)
  | osError (msg : String)
  | keyError (k : String)
deriving DecidableEq

/-- How a run ends: success (exit 0); an exit with status 1 after a
message was printed, toStderr telling whether it went to the error
stream (err=True) or to standard output; or an unhandled exception
traceback (the interpreter prints the traceback to stderr and exits
with status 1, with no formatted error line). -/
inductive Outcome where
  | success
  | errorExit (msg : String) (toStderr : Bool)
  | crash (key : String)
deriving DecidableEq

/-- The formatted error line of the top-level handlers
(source lines 106 to 120). -/
def errLine (m : String) : String := "insta485generator error: " ++ m

/-- The five top-level except clauses, lines 106 to 120: they catch
FileNotFoundError, FileExistsError, JSONDecodeError, TemplateError and
OSError, printing the formatted line to stderr and exiting 1. KeyError
is none of these (and not a subclass of any), so it escapes as an
unhandled traceback. -/
def topLevelHandle : Exc → Outcome
  | .fileNotFound m => .errorExit (errLine m) true
  | .fileExists m => .errorExit (errLine m) true
  | .jsonDecode m => .errorExit (errLine m) true
  | .templateError m => .errorExit (errLine m) true
  | .osError m => .errorExit (errLine m) true
  | .keyError k => .crash k

/-- Reading and parsing config.json can fail two ways: the open call
raises FileNotFoundError (file missing), or json.load raises
JSONDecodeError carrying a message, line, column and character
position. -/
inductive ConfigErr where
  | missing (msg : String)
  | parseFailure (msg : String) (lineno colno pos : Nat)
deriving DecidableEq

/-- The message of the re-raised JSONDecodeError, lines 44 to 52: its
constructor message embeds the config path and the original message
with line and column, and JSONDecodeError itself appends
": line L column C (char P)" recomputed from the same document and
position, hence with the same line and column. -/
def jsonErrorShown (path msg : String) (l c pos : Nat) : String :=
  "'" ++ path ++ "'\n" ++ msg ++ " (line " ++ toString l ++ " column "
    ++ toString c ++ ")" ++ ": line " ++ toString l ++ " column "
    ++ toString c ++ " (char " ++ toString pos ++ ")"

/-- The world at startup, everything main observes. -/
structure RunInput where
  outputExists : Bool
  configPathStr : String
  configResult : Except ConfigErr (List RouteRec)
  staticTree : Option Tree
  staticCopyError : Option String
  env : Env
  outRoot : FilePath
  fs0 : Fs

/-- The observable result of a run: final filesystem, whether the
output directory was created, and how the process ended. -/
structure RunResult where
  fs : Fs
  madeOutputDir : Bool
  outcome : Outcome

/-- The tail of main after mkdir and static copy: run the render loop
and map its error, if any, through the top-level handlers. A
TemplateNotFound is re-raised as FileNotFoundError with message
"'<name>' not found." (lines 80 to 83); a KeyError propagates. -/
def runRoutes (env : Env) (outRoot : FilePath) (routes : List RouteRec)
    (fs1 : Fs) : RunResult :=
  match renderLoop env outRoot routes fs1 with
  | (fs2, none) => ⟨fs2, true, .success⟩
  | (fs2, some (.keyError k)) => ⟨fs2, true, topLevelHandle (.keyError k)⟩
  | (fs2, some (.templateMissing n)) =>
      ⟨fs2, true, topLevelHandle (.fileNotFound ("'" ++ n ++ "' not found."))⟩

/-- The driver, function main. In order: the output-exists check
(lines 27 to 29, message to stdout, sys.exit(1)); environment
construction (no filesystem effect); config open and parse
(lines 39 to 52); mkdir of the output root (line 59); the static copy
(lines 61 to 73, its OSError printed to stdout followed by
sys.exit(1); the filesystem state of a failed copy is not modelled
beyond being irrelevant to every claim); then the render loop. -/
def runMain (inp : RunInput) : RunResult :=
  if inp.outputExists then
    ⟨inp.fs0, false, .errorExit "Path already exists" false⟩
  else
    match inp.configResult with
    | .error (.missing m) =>
        ⟨inp.fs0, false, topLevelHandle (.fileNotFound m)⟩
    | .error (.parseFailure m l c pos) =>
        ⟨inp.fs0, false,
          topLevelHandle (.jsonDecode (jsonErrorShown inp.configPathStr m l c pos))⟩
    | .ok routes =>
        match inp.staticTree with
        | some files =>
          match inp.staticCopyError with
          | some em =>
              ⟨inp.fs0, true, .errorExit ("Error copying static files: " ++ em) false⟩
          | none =>
              runRoutes inp.env inp.outRoot routes
                (copyStatic (some files) inp.outRoot inp.fs0)
        | none => runRoutes inp.env inp.outRoot routes inp.fs0

/-- The process exit status of a run: 0 on success, 1 on a handled
error exit, and 1 for an unhandled traceback (CPython exits with
status 1 on an uncaught exception). -/
def exitCode (r : RunResult) : Nat :=
  match r.outcome with
  | .success => 0
  | .errorExit _ _ => 1
  | .crash _ => 1

/-! Substring containment, for statements about error messages. -/

/-- The string sub occurs contiguously inside s. -/
def containsSub (s sub : String) : Prop := ∃ x y, s = x ++ sub ++ y

/-! Concrete inputs used to instantiate the claims. -/

/-- A two-route valid site: one route at the site root, one nested. -/
def inpValidTwoRoutes : RunInput :=
  ⟨false, "hi/config.json",
   .ok [⟨some "/", some "index.html", some [("title", "Hi")]⟩,
        ⟨some "/u/a/", some "u.html", some []⟩],
   some [(["css", "style.css"], "body")], none,
   [("index.html", [Segment.lit "<h1>", Segment.var "title", Segment.lit "</h1>"]),
    ("u.html", [Segment.lit "user"])],
   ["html"], fun _ => none⟩

/-- A run whose output directory already exists. -/
def inpOutputTaken : RunInput :=
  ⟨true, "hi/config.json", .ok [], none, none, [], ["html"], fun _ => none⟩

/-- Another run with a pre-existing output directory, exercising the
message discipline. -/
def inpOutputTakenB : RunInput :=
  ⟨true, "site/config.json", .ok [], none, none, [], ["out"], fun _ => none⟩

/-- A route whose template name does not end in .html or .xml, with a
script tag in its context. -/
def inpTxtTemplate : RunInput :=
  ⟨false, "hi/config.json",
   .ok [⟨some "/p", some "page.txt", some [("title", "<script>")]⟩],
   none, none, [("page.txt", [Segment.var "title"])], ["html"], fun _ => none⟩

/-- One good route followed by a route naming a missing template. -/
def inpMissingTemplate : RunInput :=
  ⟨false, "hi/config.json",
   .ok [⟨some "a", some "t.html", some []⟩,
        ⟨some "b", some "missing.html", some []⟩],
   none, none, [("t.html", [Segment.lit "ok"])], ["html"], fun _ => none⟩

/-- A run whose config.json is malformed at line 3, column 7, char 42. -/
def inpBadJson : RunInput :=
  ⟨false, "hi/config.json", .error (.parseFailure "Expecting value" 3 7 42),
   none, none, [], ["html"], fun _ => none⟩

/-- Another malformed-JSON run. -/
def inpBadJsonB : RunInput :=
  ⟨false, "site/config.json", .error (.parseFailure "Extra data" 1 2 1),
   none, none, [], ["out"], fun _ => none⟩

/-- Two routes whose urls normalize to the same destination. -/
def inpDupDest : RunInput :=
  ⟨false, "hi/config.json",
   .ok [⟨some "p", some "a.html", some []⟩,
        ⟨some "/p/", some "b.html", some []⟩],
   none, none,
   [("a.html", [Segment.lit "A"]), ("b.html", [Segment.lit "B"])],
   ["html"], fun _ => none⟩

/-- A route record with no url key. -/
def inpNoUrlKey : RunInput :=
  ⟨false, "hi/config.json",
   .ok [⟨none, some "t.html", some []⟩],
   none, none, [("t.html", [Segment.lit "ok"])], ["html"], fun _ => none⟩

/-! Path normalization lemmas. -/

theorem splitSegs_dropLeadingSlashes (cs : List Char) :
    splitSegs (dropLeadingSlashes cs) [] = splitSegs cs [] := by
  induction cs with
  | nil => rfl
  | cons c cs ih =>
    by_cases h : c = '/'
    · simp [dropLeadingSlashes, splitSegs, h, ih]
    · simp [dropLeadingSlashes, splitSegs, h]

theorem splitSegs_dropOneSlash (cs : List Char) :
    splitSegs (dropOneSlash cs) [] = splitSegs cs [] := by
  cases cs with
  | nil => rfl
  | cons c cs =>
    by_cases h : c = '/'
    · simp [dropOneSlash, splitSegs, h]
    · simp [dropOneSlash, splitSegs, h]

/-- Stripping all leading slashes and stripping one leading slash give
the same normalized path. -/
theorem destPath_eq_specDestPath (outRoot : FilePath) (url : String) :
    destPath outRoot url = specDestPath outRoot url := by
  unfold destPath specDestPath segmentsOf lstripSlash
  rw [show (String.mk (dropLeadingSlashes url.data)).data
        = dropLeadingSlashes url.data from rfl,
      show (String.mk (dropOneSlash url.data)).data
        = dropOneSlash url.data from rfl,
      splitSegs_dropLeadingSlashes, splitSegs_dropOneSlash]

/-! Lemmas about write sequences. -/

theorem writeAll_apply (ws : List (FilePath × String)) (fs : Fs) (q : FilePath) :
    writeAll fs ws q = match lastLookup ws q with
      | some c => some c
      | none => fs q := by
  induction ws generalizing fs with
  | nil => rfl
  | cons pc rest ih =>
    show writeAll (fsWrite fs pc.1 pc.2) rest q = _
    rw [ih]
    cases h : lastLookup rest q with
    | some c => simp [lastLookup, h]
    | none =>
      simp only [lastLookup, h, fsWrite]
      by_cases hq : q = pc.1 <;> simp [hq]

/-- Writing the same sequence twice gives the same filesystem as
writing it once. -/
theorem writeAll_idem (ws : List (FilePath × String)) (fs : Fs) :
    writeAll (writeAll fs ws) ws = writeAll fs ws := by
  funext q
  rw [writeAll_apply, writeAll_apply]
  cases h : lastLookup ws q <;> simp [h]

/-- A path with a recorded last write occurs among the written paths. -/
theorem lastLookup_mem (ws : List (FilePath × String)) (q : FilePath)
    (c : String) (h : lastLookup ws q = some c) :
    q ∈ ws.map (fun pc => pc.1) := by
  induction ws generalizing c with
  | nil => simp [lastLookup] at h
  | cons pc rest ih =>
    simp only [lastLookup] at h
    cases hr : lastLookup rest q with
    | some d =>
      simp only [List.map_cons]
      exact List.mem_cons_of_mem _ (ih d hr)
    | none =>
      rw [hr] at h
      by_cases hq : q = pc.1
      · simp [hq]
      · simp [hq] at h

/-- writeAll touches only the paths it writes. -/
theorem writeAll_untouched (ws : List (FilePath × String)) (fs : Fs)
    (q : FilePath) (h : writeAll fs ws q ≠ fs q) : q ∈ ws.map (fun pc => pc.1) := by
  rw [writeAll_apply] at h
  cases hl : lastLookup ws q with
  | none => rw [hl] at h; exact absurd rfl h
  | some c => exact lastLookup_mem ws q c hl

/-- A path not among the written ones has no last write. -/
theorem lastLookup_not_mem (ws : List (FilePath × String)) (q : FilePath)
    (h : q ∉ ws.map (fun pc => pc.1)) : lastLookup ws q = none := by
  cases hl : lastLookup ws q with
  | none => rfl
  | some c => exact absurd (lastLookup_mem ws q c hl) h

theorem lastLookup_append (ws1 ws2 : List (FilePath × String)) (q : FilePath) :
    lastLookup (ws1 ++ ws2) q
      = match lastLookup ws2 q with
        | some c => some c
        | none => lastLookup ws1 q := by
  induction ws1 with
  | nil => simp only [List.nil_append, lastLookup]; cases lastLookup ws2 q <;> rfl
  | cons pc rest ih =>
    show lastLookup (pc :: (rest ++ ws2)) q = _
    simp only [lastLookup, ih]
    cases lastLookup ws2 q <;> cases lastLookup rest q <;> rfl

/-- When written paths are distinct, each write is the last one to its
path. -/
theorem lastLookup_nodup (ws : List (FilePath × String))
    (hnd : (ws.map (fun pc => pc.1)).Nodup) (p : FilePath) (c : String)
    (h : (p, c) ∈ ws) : lastLookup ws p = some c := by
  induction ws with
  | nil => simp at h
  | cons pc rest ih =>
    simp only [List.map_cons, List.nodup_cons] at hnd
    rcases List.mem_cons.mp h with heq | hmem
    · have hnot : p ∉ rest.map (fun pc => pc.1) := by
        rw [← heq] at hnd; exact hnd.1
      simp only [lastLookup, lastLookup_not_mem rest p hnot, ← heq]
      simp
    · simp only [lastLookup, ih hnd.2 hmem]

/-! Lemmas about the render loop. -/

theorem renderLoop_ok (env : Env) (o : FilePath) (routes : List RouteRec)
    (hok : ∀ r ∈ routes, routeOkB env r = true) (fs : Fs) :
    renderLoop env o routes fs
      = (writeAll fs (routes.map (routeWrite env o)), none) := by
  induction routes generalizing fs with
  | nil => rfl
  | cons r rest ih =>
    have hr := hok r (List.mem_cons_self r rest)
    have hrest : ∀ r' ∈ rest, routeOkB env r' = true :=
      fun r' h => hok r' (List.mem_cons_of_mem r h)
    cases hu : r.url with
    | none => simp [routeOkB, hu] at hr
    | some u =>
      cases ht : r.template with
      | none => simp [routeOkB, ht] at hr
      | some tn =>
        cases hlt : lookupTemplate env (lstripSlash tn) with
        | none => simp [routeOkB, ht, hlt] at hr
        | some t =>
          cases hctx : r.context with
          | none => simp [routeOkB, hctx] at hr
          | some ctx =>
            simp only [renderLoop, hu, ht, hlt, hctx]
            rw [ih hrest]
            simp only [List.map_cons, writeAll]
            have hw : routeWrite env o r
                = (destPath o u,
                   renderTemplate (selectAutoescape (lstripSlash tn)) ctx t) := by
              simp [routeWrite, routeDest, routeUrl, routeRendered, hu, ht, hlt, hctx]
            rw [hw]

theorem renderLoop_stops (env : Env) (o : FilePath) (pre : List RouteRec)
    (bad : RouteRec) (post : List RouteRec) (e : LoopErr)
    (hok : ∀ r ∈ pre, routeOkB env r = true)
    (hbad : routeFailure env bad = some e) (fs : Fs) :
    renderLoop env o (pre ++ bad :: post) fs
      = (writeAll fs (pre.map (routeWrite env o)), some e) := by
  induction pre generalizing fs with
  | nil =>
    show renderLoop env o (bad :: post) fs = (fs, some e)
    cases hu : bad.url with
    | none =>
      simp [routeFailure, hu] at hbad
      simp only [renderLoop, hu, ← hbad]
    | some u =>
      cases ht : bad.template with
      | none =>
        simp [routeFailure, hu, ht] at hbad
        simp only [renderLoop, hu, ht, ← hbad]
      | some tn =>
        cases hlt : lookupTemplate env (lstripSlash tn) with
        | none =>
          simp [routeFailure, hu, ht, hlt] at hbad
          simp only [renderLoop, hu, ht, hlt, ← hbad]
        | some t =>
          cases hctx : bad.context with
          | none =>
            simp [routeFailure, hu, ht, hlt, hctx] at hbad
            simp only [renderLoop, hu, ht, hlt, hctx, ← hbad]
          | some ctx => simp [routeFailure, hu, ht, hlt, hctx] at hbad
  | cons r rest ih =>
    have hr := hok r (List.mem_cons_self r rest)
    have hrest : ∀ r' ∈ rest, routeOkB env r' = true :=
      fun r' h => hok r' (List.mem_cons_of_mem r h)
    cases hu : r.url with
    | none => simp [routeOkB, hu] at hr
    | some u =>
      cases ht : r.template with
      | none => simp [routeOkB, ht] at hr
      | some tn =>
        cases hlt : lookupTemplate env (lstripSlash tn) with
        | none => simp [routeOkB, ht, hlt] at hr
        | some t =>
          cases hctx : r.context with
          | none => simp [routeOkB, hctx] at hr
          | some ctx =>
            show renderLoop env o (r :: (rest ++ bad :: post)) fs = _
            simp only [renderLoop, hu, ht, hlt, hctx]
            rw [ih hrest]
            simp only [List.map_cons, writeAll]
            have hw : routeWrite env o r
                = (destPath o u,
                   renderTemplate (selectAutoescape (lstripSlash tn)) ctx t) := by
              simp [routeWrite, routeDest, routeUrl, routeRendered, hu, ht, hlt, hctx]
            rw [hw]

/-! Lemmas about escaping. -/

theorem lt_not_mem_escChar (c : Char) : '<' ∉ escChar c := by
  unfold escChar
  split_ifs with h1 h2 h3 h4 h5
  · decide
  · decide
  · decide
  · decide
  · decide
  · intro h
    rw [List.mem_singleton] at h
    exact h2 h.symm

theorem lt_not_mem_escList (cs : List Char) : '<' ∉ escList cs := by
  induction cs with
  | nil => simp [escList]
  | cons c cs ih =>
    intro h
    rcases List.mem_append.mp h with h1 | h2
    · exact lt_not_mem_escChar c h1
    · exact ih h2

theorem lt_not_mem_renderList (ctx : Ctx) (t : Template)
    (hlit : ∀ s, Segment.lit s ∈ t → '<' ∉ s.data) :
    '<' ∉ renderList true ctx t := by
  induction t with
  | nil => simp [renderList]
  | cons seg rest ih =>
    have hrest : ∀ s, Segment.lit s ∈ rest → '<' ∉ s.data :=
      fun s hs => hlit s (List.mem_cons_of_mem _ hs)
    cases seg with
    | lit s =>
      intro h
      simp only [renderList] at h
      rcases List.mem_append.mp h with h1 | h2
      · exact hlit s (List.mem_cons_self _ _) h1
      · exact ih hrest h2
    | var x =>
      intro h
      simp only [renderList, if_pos] at h
      rcases List.mem_append.mp h with h1 | h2
      · exact lt_not_mem_escList _ h1
      · exact ih hrest h2

/-! Lemmas about substring containment. -/

theorem containsSub_of_append_left (a b sub : String)
    (h : containsSub a sub) : containsSub (a ++ b) sub := by
  obtain ⟨x, y, hxy⟩ := h
  exact ⟨x, y ++ b, by rw [hxy, String.append_assoc, String.append_assoc]⟩

theorem containsSub_of_append_right (a b sub : String)
    (h : containsSub b sub) : containsSub (a ++ b) sub := by
  obtain ⟨x, y, hxy⟩ := h
  exact ⟨a ++ x, y, by rw [hxy, String.append_assoc, String.append_assoc,
    String.append_assoc]⟩

theorem containsSub_self (s : String) : containsSub s s :=
  ⟨"", "", by simp⟩

/-! Lemmas about the driver. -/

/-- On a run that passes the exists check, parses its config and copies
static files without error, main reduces to the render loop over the
statically-copied filesystem. -/
theorem runMain_ok (inp : RunInput) (routes : List RouteRec)
    (h1 : inp.outputExists = false)
    (h2 : inp.configResult = .ok routes)
    (h3 : inp.staticCopyError = none) :
    runMain inp = runRoutes inp.env inp.outRoot routes
      (copyStatic inp.staticTree inp.outRoot inp.fs0) := by
  unfold runMain
  rw [h1, h2]
  simp only [Bool.false_eq_true, if_false]
  cases hst : inp.staticTree with
  | none => simp [copyStatic]
  | some files => rw [h3]

/-- Projecting a write sequence to its paths gives the route
destinations. -/
theorem map_fst_routeWrite (env : Env) (o : FilePath) (routes : List RouteRec) :
    (routes.map (routeWrite env o)).map (fun pc => pc.1)
      = routes.map (routeDest o) := by
  rw [List.map_map]
  rfl

/-- The three ways the route-rendering tail of main can end. -/
theorem runRoutes_outcome_cases (env : Env) (o : FilePath)
    (routes : List RouteRec) (fs1 : Fs) :
    (runRoutes env o routes fs1).outcome = .success ∨
    (∃ k, (runRoutes env o routes fs1).outcome = .crash k) ∨
    (∃ d, (runRoutes env o routes fs1).outcome = .errorExit (errLine d) true) := by
  rcases h : renderLoop env o routes fs1 with ⟨fs2, e⟩
  cases e with
  | none => exact Or.inl (by simp [runRoutes, h])
  | some le =>
    cases le with
    | keyError k =>
      exact Or.inr (Or.inl ⟨k, by simp [runRoutes, h, topLevelHandle]⟩)
    | templateMissing n =>
      exact Or.inr (Or.inr ⟨"'" ++ n ++ "' not found.",
        by simp [runRoutes, h, topLevelHandle]⟩)

/-- Classification of every possible run outcome of main. -/
theorem runMain_outcome_cases (inp : RunInput) :
    (runMain inp).outcome = .success ∨
    (∃ k, (runMain inp).outcome = .crash k) ∨
    (∃ d, (runMain inp).outcome = .errorExit (errLine d) true) ∨
    (runMain inp).outcome = .errorExit "Path already exists" false ∨
    (∃ d, (runMain inp).outcome
      = .errorExit ("Error copying static files: " ++ d) false) := by
  unfold runMain
  by_cases he : inp.outputExists = true
  · rw [if_pos he]
    exact Or.inr (Or.inr (Or.inr (Or.inl rfl)))
  · rw [if_neg he]
    cases hc : inp.configResult with
    | error ce =>
      cases ce with
      | missing m =>
        exact Or.inr (Or.inr (Or.inl ⟨m, rfl⟩))
      | parseFailure m l c pos =>
        exact Or.inr (Or.inr (Or.inl
          ⟨jsonErrorShown inp.configPathStr m l c pos, rfl⟩))
    | ok routes =>
      cases hst : inp.staticTree with
      | none =>
        rcases runRoutes_outcome_cases inp.env inp.outRoot routes inp.fs0 with
          h | ⟨k, h⟩ | ⟨d, h⟩
        · exact Or.inl h
        · exact Or.inr (Or.inl ⟨k, h⟩)
        · exact Or.inr (Or.inr (Or.inl ⟨d, h⟩))
      | some files =>
        cases hse : inp.staticCopyError with
        | some em =>
          exact Or.inr (Or.inr (Or.inr (Or.inr ⟨em, rfl⟩)))
        | none =>
          rcases runRoutes_outcome_cases inp.env inp.outRoot routes
            (copyStatic (some files) inp.outRoot inp.fs0) with
            h | ⟨k, h⟩ | ⟨d, h⟩
          · exact Or.inl h
          · exact Or.inr (Or.inl ⟨k, h⟩)
          · exact Or.inr (Or.inr (Or.inl ⟨d, h⟩))

/-! The claims. -/

/-- C1: for every valid config (all keys present, templates resolvable,
pairwise distinct destinations) the run succeeds; the renderer writes
one file per route, each at the destination obtained from the url,
which coincides with the spec path that strips a single leading slash
and appends index.html under the output root; each such file holds the
rendered output of its route; and the renderer writes no other path, so
exactly N files are produced for N routes. -/
theorem claim1_routes_written (inp : RunInput) (routes : List RouteRec)
    (h1 : inp.outputExists = false)
    (h2 : inp.configResult = .ok routes)
    (h3 : inp.staticCopyError = none)
    (h4 : ∀ r ∈ routes, routeOkB inp.env r = true)
    (h5 : (routes.map (routeDest inp.outRoot)).Nodup) :
    (runMain inp).outcome = .success ∧
    (∀ r ∈ routes,
      routeDest inp.outRoot r = specDestPath inp.outRoot (routeUrl r)) ∧
    (∀ r ∈ routes,
      (runMain inp).fs (routeDest inp.outRoot r)
        = some (routeRendered inp.env r)) ∧
    (∀ p, (runMain inp).fs p ≠ copyStatic inp.staticTree inp.outRoot inp.fs0 p →
      p ∈ routes.map (routeDest inp.outRoot)) := by
  rw [runMain_ok inp routes h1 h2 h3]
  have hrun : runRoutes inp.env inp.outRoot routes
      (copyStatic inp.staticTree inp.outRoot inp.fs0)
      = ⟨writeAll (copyStatic inp.staticTree inp.outRoot inp.fs0)
           (routes.map (routeWrite inp.env inp.outRoot)), true, .success⟩ := by
    unfold runRoutes
    rw [renderLoop_ok inp.env inp.outRoot routes h4]
  rw [hrun]
  refine ⟨rfl, fun r _ => destPath_eq_specDestPath _ _, ?_, ?_⟩
  · intro r hr
    show writeAll _ _ (routeDest inp.outRoot r) = _
    have hnd : ((routes.map (routeWrite inp.env inp.outRoot)).map
        (fun pc => pc.1)).Nodup := by
      rw [map_fst_routeWrite]; exact h5
    have hmem : (routeDest inp.outRoot r, routeRendered inp.env r)
        ∈ routes.map (routeWrite inp.env inp.outRoot) :=
      List.mem_map_of_mem _ hr
    rw [writeAll_apply, lastLookup_nodup _ hnd _ _ hmem]
  · intro p hp
    have h := writeAll_untouched _ _ p hp
    rwa [map_fst_routeWrite] at h

/-- Witness for C1: the two-route site succeeds; the root route file
html/index.html holds the escaped-render of its template. -/
theorem claim1_witness :
    (runMain inpValidTwoRoutes).outcome = .success ∧
    (runMain inpValidTwoRoutes).fs ["html", "index.html"] = some "<h1>Hi</h1>" := by
  have h := claim1_routes_written inpValidTwoRoutes
    [⟨some "/", some "index.html", some [("title", "Hi")]⟩,
     ⟨some "/u/a/", some "u.html", some []⟩]
    rfl rfl rfl (by decide) (by decide)
  have h2 := h.2.2.1 ⟨some "/", some "index.html", some [("title", "Hi")]⟩
    (by decide)
  have hd : routeDest inpValidTwoRoutes.outRoot
      ⟨some "/", some "index.html", some [("title", "Hi")]⟩
      = ["html", "index.html"] := by decide
  have hr : routeRendered inpValidTwoRoutes.env
      ⟨some "/", some "index.html", some [("title", "Hi")]⟩
      = "<h1>Hi</h1>" := by decide
  rw [hd, hr] at h2
  exact ⟨h.1, h2⟩

/-- C2: if the resolved output directory already exists before the run
starts, the program exits with status 1 and makes no filesystem
changes: the filesystem is unchanged and the output directory is not
created. -/
theorem claim2_output_exists_aborts (inp : RunInput)
    (h : inp.outputExists = true) :
    exitCode (runMain inp) = 1 ∧ (runMain inp).fs = inp.fs0 ∧
      (runMain inp).madeOutputDir = false := by
  refine ⟨?_, ?_, ?_⟩ <;> simp [runMain, h, exitCode]

/-- Witness for C2 at a concrete input. -/
theorem claim2_witness :
    exitCode (runMain inpOutputTaken) = 1 ∧
    (runMain inpOutputTaken).fs = inpOutputTaken.fs0 ∧
    (runMain inpOutputTaken).madeOutputDir = false :=
  claim2_output_exists_aborts inpOutputTaken rfl

/-- C5: a route naming a nonexistent template makes the run exit with
status 1 via the formatted FileNotFoundError message; the final
filesystem is exactly the one after the preceding routes, so no
index.html is written for the failing route or any later route, while
earlier routes' outputs remain. -/
theorem claim5_template_missing_fail_fast (inp : RunInput)
    (pre : List RouteRec) (bad : RouteRec) (post : List RouteRec) (n : String)
    (h1 : inp.outputExists = false)
    (h2 : inp.configResult = .ok (pre ++ bad :: post))
    (h3 : inp.staticCopyError = none)
    (h4 : ∀ r ∈ pre, routeOkB inp.env r = true)
    (h5 : routeFailure inp.env bad = some (.templateMissing n)) :
    exitCode (runMain inp) = 1 ∧
    (runMain inp).outcome
      = .errorExit (errLine ("'" ++ n ++ "' not found.")) true ∧
    (runMain inp).fs
      = writeAll (copyStatic inp.staticTree inp.outRoot inp.fs0)
          (pre.map (routeWrite inp.env inp.outRoot)) ∧
    (∀ p, (runMain inp).fs p ≠ copyStatic inp.staticTree inp.outRoot inp.fs0 p →
      p ∈ pre.map (routeDest inp.outRoot)) := by
  rw [runMain_ok inp (pre ++ bad :: post) h1 h2 h3]
  have hrun : runRoutes inp.env inp.outRoot (pre ++ bad :: post)
      (copyStatic inp.staticTree inp.outRoot inp.fs0)
      = ⟨writeAll (copyStatic inp.staticTree inp.outRoot inp.fs0)
           (pre.map (routeWrite inp.env inp.outRoot)), true,
         topLevelHandle (.fileNotFound ("'" ++ n ++ "' not found."))⟩ := by
    unfold runRoutes
    rw [renderLoop_stops inp.env inp.outRoot pre bad post _ h4 h5]
  rw [hrun]
  refine ⟨rfl, rfl, rfl, ?_⟩
  intro p hp
  have h := writeAll_untouched _ _ p hp
  rwa [map_fst_routeWrite] at h

/-- Witness for C5: the run with a missing template exits 1 and leaves
no file at the failing route's destination. -/
theorem claim5_witness :
    exitCode (runMain inpMissingTemplate) = 1 ∧
    (runMain inpMissingTemplate).fs ["html", "b", "index.html"] = none := by
  have h := claim5_template_missing_fail_fast inpMissingTemplate
    [⟨some "a", some "t.html", some []⟩]
    ⟨some "b", some "missing.html", some []⟩ [] "missing.html"
    rfl rfl rfl (by decide) (by decide)
  refine ⟨h.1, ?_⟩
  rw [h.2.2.1]
  decide

/-- C6: when config.json is malformed at line L column C, the failing
run reports the formatted JSONDecodeError whose message contains the
substring "line L", the substring "column C" and the config file
path. -/
theorem claim6_parse_error_message (inp : RunInput) (m : String)
    (l c pos : Nat)
    (h1 : inp.outputExists = false)
    (h2 : inp.configResult = .error (.parseFailure m l c pos)) :
    (runMain inp).outcome
        = .errorExit (errLine (jsonErrorShown inp.configPathStr m l c pos)) true ∧
      containsSub (errLine (jsonErrorShown inp.configPathStr m l c pos))
        ("line " ++ toString l) ∧
      containsSub (errLine (jsonErrorShown inp.configPathStr m l c pos))
        ("column " ++ toString c) ∧
      containsSub (errLine (jsonErrorShown inp.configPathStr m l c pos))
        inp.configPathStr := by
  refine ⟨by simp [runMain, h1, h2, topLevelHandle], ?_, ?_, ?_⟩
  · refine ⟨"insta485generator error: "
      ++ ("'" ++ inp.configPathStr ++ "'\n" ++ m ++ " ("),
      " column " ++ toString c ++ ")" ++ ": line " ++ toString l ++ " column "
        ++ toString c ++ " (char " ++ toString pos ++ ")", ?_⟩
    have hs : " (line " = " (" ++ "line " := rfl
    simp only [errLine, jsonErrorShown, hs, String.append_assoc]
  · refine ⟨"insta485generator error: "
      ++ ("'" ++ inp.configPathStr ++ "'\n" ++ m ++ " (line " ++ toString l
        ++ " "),
      ")" ++ ": line " ++ toString l ++ " column "
        ++ toString c ++ " (char " ++ toString pos ++ ")", ?_⟩
    have hs : " column " = " " ++ "column " := rfl
    simp only [errLine, jsonErrorShown, hs, String.append_assoc]
  · refine ⟨"insta485generator error: " ++ "'",
      "'\n" ++ m ++ " (line " ++ toString l ++ " column "
        ++ toString c ++ ")" ++ ": line " ++ toString l ++ " column "
        ++ toString c ++ " (char " ++ toString pos ++ ")", ?_⟩
    simp only [errLine, jsonErrorShown, String.append_assoc]

/-- Witness for C6 at a concrete malformed config. -/
theorem claim6_witness :
    (runMain inpBadJson).outcome
        = .errorExit (errLine (jsonErrorShown "hi/config.json"
            "Expecting value" 3 7 42)) true ∧
      containsSub (errLine (jsonErrorShown "hi/config.json"
        "Expecting value" 3 7 42)) ("line " ++ toString 3) :=
  have h := claim6_parse_error_message inpBadJson "Expecting value" 3 7 42 rfl rfl
  ⟨h.1, h.2.1⟩

/-- C7: the static copy is an idempotent merge: a missing static root
is a no-op; copying the same tree twice yields the same destination
content as copying it once; and a copied file ends up with the source
content regardless of what the destination held before (overwrite, not
an error). -/
theorem claim7_static_copy_idempotent (tree : Tree) (dst : FilePath) (fs : Fs) :
    copyStatic none dst fs = fs ∧
    copyStatic (some tree) dst (copyStatic (some tree) dst fs)
      = copyStatic (some tree) dst fs ∧
    (∀ q c, lastLookup (tree.map (fun pc => (dst ++ pc.1, pc.2))) q = some c →
      copyStatic (some tree) dst fs q = some c) := by
  refine ⟨rfl, ?_, ?_⟩
  · show writeAll (writeAll fs _) _ = writeAll fs _
    exact writeAll_idem _ _
  · intro q c h
    show writeAll fs _ q = some c
    rw [writeAll_apply, h]

/-- Witness for C7: copying over an already-populated destination
overwrites with the source content. -/
theorem claim7_witness :
    copyStatic (some [(["css", "style.css"], "body")]) ["html"]
      (fun _ => some "old") ["html", "css", "style.css"] = some "body" :=
  (claim7_static_copy_idempotent [(["css", "style.css"], "body")] ["html"]
    (fun _ => some "old")).2.2 ["html", "css", "style.css"] "body" (by decide)

/-- C8: when two routes target the same destination path the run raises
no error and the destination file ends up holding the output of the
route that occurs last in config order for that path. -/
theorem claim8_last_write_wins (inp : RunInput)
    (pre : List RouteRec) (r : RouteRec) (post : List RouteRec)
    (h1 : inp.outputExists = false)
    (h2 : inp.configResult = .ok (pre ++ r :: post))
    (h3 : inp.staticCopyError = none)
    (h4 : ∀ r' ∈ pre ++ r :: post, routeOkB inp.env r' = true)
    (h5 : ∀ r' ∈ post, routeDest inp.outRoot r' ≠ routeDest inp.outRoot r) :
    (runMain inp).outcome = .success ∧
    (runMain inp).fs (routeDest inp.outRoot r)
      = some (routeRendered inp.env r) := by
  rw [runMain_ok inp (pre ++ r :: post) h1 h2 h3]
  have hrun : runRoutes inp.env inp.outRoot (pre ++ r :: post)
      (copyStatic inp.staticTree inp.outRoot inp.fs0)
      = ⟨writeAll (copyStatic inp.staticTree inp.outRoot inp.fs0)
           ((pre ++ r :: post).map (routeWrite inp.env inp.outRoot)),
         true, .success⟩ := by
    unfold runRoutes
    rw [renderLoop_ok inp.env inp.outRoot _ h4]
  rw [hrun]
  refine ⟨rfl, ?_⟩
  show writeAll _ _ (routeDest inp.outRoot r) = _
  have hpost : lastLookup (post.map (routeWrite inp.env inp.outRoot))
      (routeDest inp.outRoot r) = none := by
    apply lastLookup_not_mem
    rw [map_fst_routeWrite]
    intro hmem
    obtain ⟨r', hr', heq⟩ := List.mem_map.mp hmem
    exact h5 r' hr' heq
  rw [writeAll_apply, List.map_append, lastLookup_append, List.map_cons]
  simp only [lastLookup, hpost]
  simp [routeWrite]

/-- Witness for C8: two routes normalizing to html/p/index.html; the
file holds the second route's render. -/
theorem claim8_witness :
    (runMain inpDupDest).outcome = .success ∧
    (runMain inpDupDest).fs ["html", "p", "index.html"] = some "B" := by
  have h := claim8_last_write_wins inpDupDest
    [⟨some "p", some "a.html", some []⟩]
    ⟨some "/p/", some "b.html", some []⟩ []
    rfl rfl rfl (by decide) (by decide)
  exact ⟨h.1, h.2⟩

/-- C9: if config.json is malformed the program exits with status 1 and
no filesystem change is made: the output directory is never created and
the filesystem is untouched (the exists check, environment build and
parse all precede directory creation and static copy). -/
theorem claim9_malformed_config_no_changes (inp : RunInput)
    (m : String) (l c pos : Nat)
    (h1 : inp.outputExists = false)
    (h2 : inp.configResult = .error (.parseFailure m l c pos)) :
    exitCode (runMain inp) = 1 ∧ (runMain inp).fs = inp.fs0 ∧
      (runMain inp).madeOutputDir = false := by
  refine ⟨?_, ?_, ?_⟩ <;> simp [runMain, h1, h2, exitCode, topLevelHandle]

/-- Witness for C9 at a concrete malformed config. -/
theorem claim9_witness :
    exitCode (runMain inpBadJsonB) = 1 ∧
    (runMain inpBadJsonB).fs = inpBadJsonB.fs0 ∧
    (runMain inpBadJsonB).madeOutputDir = false :=
  claim9_malformed_config_no_changes inpBadJsonB "Extra data" 1 2 1 rfl rfl

/-- C10: a route record lacking the url, template or context key makes
the loop raise a KeyError, which none of the five top-level handlers
catches: the run ends in an unhandled-exception traceback (exit status
1) and not in any formatted error line. -/
theorem claim10_missing_key_uncaught (inp : RunInput)
    (pre : List RouteRec) (bad : RouteRec) (post : List RouteRec) (k : String)
    (h1 : inp.outputExists = false)
    (h2 : inp.configResult = .ok (pre ++ bad :: post))
    (h3 : inp.staticCopyError = none)
    (h4 : ∀ r ∈ pre, routeOkB inp.env r = true)
    (h5 : routeFailure inp.env bad = some (.keyError k)) :
    (runMain inp).outcome = .crash k ∧
    (∀ msg b, (runMain inp).outcome ≠ .errorExit msg b) ∧
    exitCode (runMain inp) = 1 := by
  rw [runMain_ok inp (pre ++ bad :: post) h1 h2 h3]
  have hrun : runRoutes inp.env inp.outRoot (pre ++ bad :: post)
      (copyStatic inp.staticTree inp.outRoot inp.fs0)
      = ⟨writeAll (copyStatic inp.staticTree inp.outRoot inp.fs0)
           (pre.map (routeWrite inp.env inp.outRoot)), true,
         topLevelHandle (.keyError k)⟩ := by
    unfold runRoutes
    rw [renderLoop_stops inp.env inp.outRoot pre bad post _ h4 h5]
  rw [hrun]
  exact ⟨rfl, fun msg b h => Outcome.noConfusion h, rfl⟩

/-- Witness for C10: a config whose single route lacks the url key
crashes with an uncaught KeyError for "url". -/
theorem claim10_witness :
    (runMain inpNoUrlKey).outcome = .crash "url" ∧
    exitCode (runMain inpNoUrlKey) = 1 := by
  have h := claim10_missing_key_uncaught inpNoUrlKey
    [] ⟨none, some "t.html", some []⟩ [] "url"
    rfl rfl rfl (by decide) (by decide)
  exact ⟨h.1, h.2.2⟩

/-- C3 counterexample: with a pre-existing output directory the run
fails (exit status 1) but the message printed is "Path already exists",
sent to standard output (toStderr = false), and not of the form
"insta485generator error: <message>". -/
theorem claim3_counterexample :
    exitCode (runMain inpOutputTakenB) = 1 ∧
    (runMain inpOutputTakenB).outcome = .errorExit "Path already exists" false ∧
    (∀ d, "Path already exists" ≠ errLine d) := by
  refine ⟨rfl, rfl, ?_⟩
  intro d h
  have hlen := congrArg String.length h
  rw [errLine, String.length_append] at hlen
  have h1 : "Path already exists".length = 19 := rfl
  have h2 : "insta485generator error: ".length = 25 := rfl
  rw [h1, h2] at hlen
  omega

/-- C3 (amended): every non-failing run exits 0 and every failing run
exits 1; failures reaching the top-level handlers produce the formatted
line "insta485generator error: <message>" on the error stream; but the
pre-existing-output check and a static copy failure instead print a
plain message to standard output ("Path already exists" or
"Error copying static files: <details>") before exiting 1, and a
missing route key ends in an unhandled traceback with no formatted
line. -/
theorem claim3_exit_discipline (inp : RunInput) :
    ((runMain inp).outcome = .success → exitCode (runMain inp) = 0) ∧
    ((runMain inp).outcome ≠ .success → exitCode (runMain inp) = 1) ∧
    (∀ m, (runMain inp).outcome = .errorExit m true → ∃ d, m = errLine d) ∧
    (∀ m, (runMain inp).outcome = .errorExit m false →
      m = "Path already exists" ∨
      ∃ d, m = "Error copying static files: " ++ d) := by
  refine ⟨?_, ?_, ?_, ?_⟩
  · intro h; simp [exitCode, h]
  · intro h
    cases ho : (runMain inp).outcome with
    | success => exact absurd ho h
    | errorExit m b => simp [exitCode, ho]
    | crash k => simp [exitCode, ho]
  · intro m hm
    rcases runMain_outcome_cases inp with h | ⟨k, h⟩ | ⟨d, h⟩ | h | ⟨d, h⟩ <;>
      rw [h] at hm
    · exact Outcome.noConfusion hm
    · exact Outcome.noConfusion hm
    · injection hm with hmsg hflag
      exact ⟨d, hmsg.symm⟩
    · injection hm with hmsg hflag
      exact absurd hflag (by decide)
    · injection hm with hmsg hflag
      exact absurd hflag (by decide)
  · intro m hm
    rcases runMain_outcome_cases inp with h | ⟨k, h⟩ | ⟨d, h⟩ | h | ⟨d, h⟩ <;>
      rw [h] at hm
    · exact Outcome.noConfusion hm
    · exact Outcome.noConfusion hm
    · injection hm with hmsg hflag
      exact absurd hflag (by decide)
    · injection hm with hmsg hflag
      exact Or.inl hmsg.symm
    · injection hm with hmsg hflag
      exact Or.inr ⟨d, hmsg.symm⟩

/-- Witness for amended C3 at a concrete failing input. -/
theorem claim3_witness :
    exitCode (runMain inpOutputTakenB) = 1 :=
  (claim3_exit_discipline inpOutputTakenB).2.1 (by decide)

/-- C4 counterexample: a route rendered into an .html output
(index.html) from a template named page.txt: the run succeeds and the
context value <script> reaches the output as live markup, not as the
escaped text. -/
theorem claim4_counterexample :
    (runMain inpTxtTemplate).outcome = .success ∧
    (runMain inpTxtTemplate).fs ["html", "p", "index.html"] = some "<script>" ∧
    (runMain inpTxtTemplate).fs ["html", "p", "index.html"]
      ≠ some (htmlEscape "<script>") := by
  refine ⟨by decide, by decide, by decide⟩

/-- C4 (amended): autoescaping is decided by the template name, not by
the output path: for a route whose slash-stripped template name enables
select_autoescape, every interpolated context value is HTML-escaped, so
when the template literals themselves contain no angle bracket the
rendered output contains no raw '<' at all and no live markup can
appear; a route with another template extension (see the
counterexample) is rendered unescaped even though its output file is
index.html. -/
theorem claim4_autoescape_by_template_name (env : Env) (r : RouteRec)
    (t : Template)
    (h1 : selectAutoescape (lstripSlash (r.template.getD "")) = true)
    (h2 : lookupTemplate env (lstripSlash (r.template.getD "")) = some t)
    (h3 : ∀ s, Segment.lit s ∈ t → '<' ∉ s.data) :
    '<' ∉ (routeRendered env r).data := by
  unfold routeRendered
  simp only [h2, h1]
  exact lt_not_mem_renderList _ _ h3

/-- Witness for amended C4: an .html-named template with a script tag
in the context renders with no raw angle bracket. -/
theorem claim4_witness :
    '<' ∉ (routeRendered [("page.html", [Segment.lit "Hello ", Segment.var "x"])]
      ⟨some "/p", some "page.html", some [("x", "<script>")]⟩).data := by
  apply claim4_autoescape_by_template_name
    [("page.html", [Segment.lit "Hello ", Segment.var "x"])]
    ⟨some "/p", some "page.html", some [("x", "<script>")]⟩
    [Segment.lit "Hello ", Segment.var "x"]
  · decide
  · decide
  · intro s hs
    rcases List.mem_cons.mp hs with h | h
    · injection h with h'
      rw [h']
      decide
    · rcases List.mem_cons.mp h with h2 | h2
      · exact Segment.noConfusion h2
      · exact absurd h2 (List.not_mem_nil _)

end StaticGen